import Mathlib

/-!
Verification of the terminal tic-tac-toe game (`main.go`).

The game state (`board`), its constructor (`newBoard`) and its operations
(`processInput`, `normalizeXY`, `switchPlayer`, `otherPlayer`, `checkForWin`,
`isFull`, `evalBoardState`) are shallowly embedded below, following the Go
source line by line.  Go runes are modelled as `Char` (the zero rune, i.e. an
empty cell, is `Char.ofNat 0`); Go `int` cursor coordinates are modelled as
`Int`; slice indexing is modelled with `List.getD` / `List.set`, and the
constructor, whose row-allocation loop can index out of range, returns an
`Option`.
-/

namespace TicTacToe

/-- Go `rune`, the cell content: `Char.ofNat 0` for empty, `'X'` or `'O'`. -/
abbrev Cell := Char

/-- The zero rune, Go's zero value for an unset grid cell. -/
def emptyCell : Cell := Char.ofNat 0

/-- The `board` struct of `main.go`: grid, dimensions, cursor, current player
and move count. -/
structure board where
  grid : List (List Cell)
  width : Nat
  height : Nat
  curX : Int
  curY : Int
  currPlayer : Cell
  moveCount : Nat
deriving DecidableEq, Repr

/-- Read `b.grid[y][x]`, defaulting to the zero rune out of range. -/
def cellAt (b : board) (y x : Nat) : Cell :=
  (b.grid.getD y []).getD x emptyCell

/-- `otherPlayer`: `'O'` when the current player is `'X'`, else `'X'`. -/
def otherPlayer (b : board) : Cell :=
  if b.currPlayer = 'X' then 'O' else 'X'

/-- `switchPlayer`: set the current player to the other player. -/
def switchPlayer (b : board) : board :=
  { b with currPlayer := otherPlayer b }

/-- `normalizeXY`: clamp the cursor back into the grid, one sequential `if`
per bound exactly as in the source. -/
def normalizeXY (b : board) : board :=
  let b1 := if (b.height : Int) ≤ b.curY then { b with curY := (b.height : Int) - 1 } else b
  let b2 := if b1.curY < 0 then { b1 with curY := 0 } else b1
  let b3 := if (b2.width : Int) ≤ b2.curX then { b2 with curX := (b2.width : Int) - 1 } else b2
  if b3.curX < 0 then { b3 with curX := 0 } else b3

/-- `processInput`: WASD moves the cursor, space places a mark (an occupied
cell returns early), anything else falls through; every non-early-return path
ends in `normalizeXY`. -/
def processInput (b : board) (input : Char) : board :=
  if input = 'w' ∨ input = 'W' then normalizeXY { b with curY := b.curY - 1 }
  else if input = 'a' ∨ input = 'A' then normalizeXY { b with curX := b.curX - 1 }
  else if input = 's' ∨ input = 'S' then normalizeXY { b with curY := b.curY + 1 }
  else if input = 'd' ∨ input = 'D' then normalizeXY { b with curX := b.curX + 1 }
  else if input = ' ' then
    if cellAt b b.curY.toNat b.curX.toNat ≠ emptyCell then b
    else
      let newRow := (b.grid.getD b.curY.toNat []).set b.curX.toNat b.currPlayer
      normalizeXY (switchPlayer { b with grid := b.grid.set b.curY.toNat newRow })
  else normalizeXY b

/-- `isFull`: false as soon as some cell is the zero rune. -/
def isFull (b : board) : Bool :=
  b.grid.all fun row => row.all fun cell => cell != emptyCell

/-- Inner loop of `checkForWin` at row index `yi`: the pair of the
`rowHasWinner` and `colHasWinner` flags after scanning `xi` over the width. -/
def rowColScan (b : board) (yi : Nat) : Bool × Bool :=
  (List.range b.width).foldl
    (fun rc xi =>
      (if cellAt b yi 0 ≠ cellAt b yi xi ∨ cellAt b yi 0 = emptyCell then false else rc.1,
       if cellAt b 0 yi ≠ cellAt b xi yi ∨ cellAt b 0 yi = emptyCell then false else rc.2))
    (true, true)

/-- Outer loop of `checkForWin`: `fuel` iterations remain, `yi` is the current
row index, `d1`/`d2` carry the two diagonal flags; an early `return true`
happens when a row or column wins. -/
def winScan (b : board) : Nat → Nat → Bool → Bool → Bool
  | 0, _, d1, d2 => d1 || d2
  | fuel + 1, yi, d1, d2 =>
    let d1' := if cellAt b 0 0 ≠ cellAt b yi yi ∨ cellAt b 0 0 = emptyCell then false else d1
    let d2' := if cellAt b (b.height - 1) 0 ≠ cellAt b (b.height - 1 - yi) yi ∨
        cellAt b (b.height - 1) 0 = emptyCell then false else d2
    let rc := rowColScan b yi
    if rc.1 || rc.2 then true else winScan b fuel (yi + 1) d1' d2'

/-- `checkForWin`: scan every row index, with both diagonal flags starting
true. -/
def checkForWin (b : board) : Bool :=
  winScan b b.height 0 true true

/-- Outcome of `evalBoardState`, recording which branch of the `switch` fired
and, for a win, which player the banner names. -/
inductive Outcome where
  | Quit : Outcome
  | Win : Cell → Outcome
  | Draw : Outcome
  | Continue : Outcome
deriving DecidableEq, Repr

/-- `evalBoardState`: quit beats win beats draw beats continue; the win is
announced for `otherPlayer`. -/
def evalBoardState (b : board) (input : Char) : Outcome :=
  if input = 'q' then Outcome.Quit
  else if checkForWin b then Outcome.Win (otherPlayer b)
  else if isFull b then Outcome.Draw
  else Outcome.Continue

/-- One step of the row-allocation loop of `newBoard`: `b.grid[i] = make(...)`,
failing (as Go panics) when `i` is out of range. -/
def assignRow (height : Nat) (g : List (List Cell)) (i : Nat) : Option (List (List Cell)) :=
  if i < g.length then some (g.set i (List.replicate height emptyCell)) else none

/-- `newBoard`: `make([][]rune, height)` gives `height` nil rows, then the
loop assigns a zeroed row of length `height` for every `i < width`; cursor at
`(1,1)`, player `'X'`. -/
def newBoard (width height : Nat) : Option board :=
  ((List.range width).foldlM (assignRow height) (List.replicate height [])).map fun g =>
    { grid := g, width := width, height := height,
      curX := 1, curY := 1, currPlayer := 'X', moveCount := 0 }

/-- States reachable by the game loop: the board built by `newBoard(3, 3)` in
`main`, closed under processing one input. -/
inductive Reachable : board → Prop where
  | init : ∀ b, newBoard 3 3 = some b → Reachable b
  | step : ∀ b c, Reachable b → Reachable (processInput b c)

/-- The cursor lies inside `[0, width) × [0, height)`. -/
def inBounds (b : board) : Prop :=
  0 ≤ b.curX ∧ b.curX < b.width ∧ 0 ≤ b.curY ∧ b.curY < b.height

instance (b : board) : Decidable (inBounds b) :=
  inferInstanceAs (Decidable (0 ≤ b.curX ∧ b.curX < b.width ∧ 0 ≤ b.curY ∧ b.curY < b.height))

/-- A grid of `h` rows, each of length `w`. -/
def gridWellFormed (g : List (List Cell)) (w h : Nat) : Prop :=
  g.length = h ∧ ∀ r ∈ g, r.length = w

instance (g : List (List Cell)) (w h : Nat) : Decidable (gridWellFormed g w h) :=
  inferInstanceAs (Decidable (g.length = h ∧ ∀ r ∈ g, r.length = w))

/-- The board built by `newBoard(3, 3)` in `main`. -/
def initialBoard : board :=
  { grid := [[emptyCell, emptyCell, emptyCell], [emptyCell, emptyCell, emptyCell],
      [emptyCell, emptyCell, emptyCell]],
    width := 3, height := 3, curX := 1, curY := 1, currPlayer := 'X', moveCount := 0 }

lemma newBoard_three_three : newBoard 3 3 = some initialBoard := by decide

lemma normalizeXY_grid (b : board) : (normalizeXY b).grid = b.grid := by
  simp only [normalizeXY]
  split_ifs <;> rfl

lemma normalizeXY_width (b : board) : (normalizeXY b).width = b.width := by
  simp only [normalizeXY]
  split_ifs <;> rfl

lemma normalizeXY_height (b : board) : (normalizeXY b).height = b.height := by
  simp only [normalizeXY]
  split_ifs <;> rfl

lemma normalizeXY_currPlayer (b : board) : (normalizeXY b).currPlayer = b.currPlayer := by
  simp only [normalizeXY]
  split_ifs <;> rfl

lemma normalizeXY_moveCount (b : board) : (normalizeXY b).moveCount = b.moveCount := by
  simp only [normalizeXY]
  split_ifs <;> rfl

lemma normalizeXY_inBounds (b : board) (hw : 0 < b.width) (hh : 0 < b.height) :
    inBounds (normalizeXY b) := by
  simp only [normalizeXY, inBounds]
  split_ifs <;> simp_all <;> omega

lemma normalizeXY_of_inBounds (b : board) (hb : inBounds b) : normalizeXY b = b := by
  obtain ⟨h1, h2, h3, h4⟩ := hb
  simp only [normalizeXY]
  rw [if_neg (show ¬((b.height : Int) ≤ b.curY) by omega)]
  rw [if_neg (show ¬(b.curY < (0 : Int)) by omega)]
  rw [if_neg (show ¬((b.width : Int) ≤ b.curX) by omega)]
  rw [if_neg (show ¬(b.curX < (0 : Int)) by omega)]

lemma processInput_width (b : board) (c : Char) : (processInput b c).width = b.width := by
  simp only [processInput, switchPlayer]
  split_ifs <;> simp [normalizeXY_width]

lemma processInput_height (b : board) (c : Char) : (processInput b c).height = b.height := by
  simp only [processInput, switchPlayer]
  split_ifs <;> simp [normalizeXY_height]

lemma processInput_inBounds (b : board) (c : Char) (hw : 0 < b.width) (hh : 0 < b.height)
    (hb : inBounds b) : inBounds (processInput b c) := by
  simp only [processInput, switchPlayer]
  split_ifs <;> first
    | exact hb
    | exact normalizeXY_inBounds _ hw hh

lemma reachable_inv (b : board) (h : Reachable b) :
    b.width = 3 ∧ b.height = 3 ∧ inBounds b := by
  induction h with
  | init b hb =>
    rw [newBoard_three_three] at hb
    injection hb with hb
    subst hb
    exact ⟨rfl, rfl, by constructor <;> [decide; constructor <;> [decide; constructor <;> decide]]⟩
  | step b c _ ih =>
    obtain ⟨hw, hh, hb⟩ := ih
    refine ⟨(processInput_width b c).trans hw, (processInput_height b c).trans hh, ?_⟩
    exact processInput_inBounds b c (by omega) (by omega) hb

/-- The grid after `b.grid[b.curY][b.curX] = b.currPlayer`. -/
def placeGrid (b : board) : List (List Cell) :=
  b.grid.set b.curY.toNat ((b.grid.getD b.curY.toNat []).set b.curX.toNat b.currPlayer)

lemma processInput_space_occupied (b : board)
    (h : cellAt b b.curY.toNat b.curX.toNat ≠ emptyCell) : processInput b ' ' = b := by
  simp only [processInput]
  rw [if_neg (show ¬(' ' = 'w' ∨ ' ' = 'W') by decide)]
  rw [if_neg (show ¬(' ' = 'a' ∨ ' ' = 'A') by decide)]
  rw [if_neg (show ¬(' ' = 's' ∨ ' ' = 'S') by decide)]
  rw [if_neg (show ¬(' ' = 'd' ∨ ' ' = 'D') by decide)]
  rw [if_pos trivial]
  rw [if_pos h]

lemma processInput_space_empty (b : board)
    (h : cellAt b b.curY.toNat b.curX.toNat = emptyCell) :
    processInput b ' ' = normalizeXY (switchPlayer { b with grid := placeGrid b }) := by
  simp only [processInput]
  rw [if_neg (show ¬(' ' = 'w' ∨ ' ' = 'W') by decide)]
  rw [if_neg (show ¬(' ' = 'a' ∨ ' ' = 'A') by decide)]
  rw [if_neg (show ¬(' ' = 's' ∨ ' ' = 'S') by decide)]
  rw [if_neg (show ¬(' ' = 'd' ∨ ' ' = 'D') by decide)]
  rw [if_pos trivial]
  rw [if_neg (not_not_intro h)]
  rfl

lemma getD_set_ne {α : Type} (l : List α) (i j : Nat) (a d : α) (h : i ≠ j) :
    (l.set i a).getD j d = l.getD j d := by
  rw [List.getD_eq_getElem?_getD, List.getD_eq_getElem?_getD, List.getElem?_set_ne h]

lemma getD_set_self {α : Type} (l : List α) (i : Nat) (a d : α) (h : i < l.length) :
    (l.set i a).getD i d = a := by
  rw [List.getD_eq_getElem?_getD, List.getElem?_set_self h, Option.getD_some]

lemma getD_set_oob {α : Type} (l : List α) (i j : Nat) (a d : α) (h : l.length ≤ i) :
    (l.set i a).getD j d = l.getD j d := by
  rcases eq_or_ne i j with rfl | hij
  · rw [List.getD_eq_getElem?_getD, List.getD_eq_getElem?_getD,
      List.getElem?_eq_none (by simpa using h), List.getElem?_eq_none h]
  · exact getD_set_ne l i j a d hij

lemma cellAt_place_persist (b : board) (y x : Nat)
    (hne : cellAt b y x ≠ emptyCell)
    (hemp : cellAt b b.curY.toNat b.curX.toNat = emptyCell) :
    ((placeGrid b).getD y []).getD x emptyCell = cellAt b y x := by
  simp only [placeGrid, cellAt] at hne hemp ⊢
  by_cases hy : y = b.curY.toNat
  · rw [hy] at hne ⊢
    by_cases hx : x = b.curX.toNat
    · rw [hx] at hne
      exact absurd hemp hne
    · by_cases hY : b.curY.toNat < b.grid.length
      · rw [getD_set_self _ _ _ _ hY, getD_set_ne _ _ _ _ _ (fun hxx => hx hxx.symm)]
      · rw [getD_set_oob _ _ _ _ _ (Nat.le_of_not_lt hY)]
  · rw [getD_set_ne _ _ _ _ _ (fun hyy => hy hyy.symm)]

lemma cellAt_processInput (b : board) (c : Char) (y x : Nat)
    (hne : cellAt b y x ≠ emptyCell) :
    cellAt (processInput b c) y x = cellAt b y x := by
  have hgrid : ∀ b' : board, b'.grid = b.grid → cellAt b' y x = cellAt b y x := by
    intro b' h
    simp [cellAt, h]
  simp only [processInput]
  split_ifs with h1 h2 h3 h4 h5 h6
  · exact hgrid _ (normalizeXY_grid _)
  · exact hgrid _ (normalizeXY_grid _)
  · exact hgrid _ (normalizeXY_grid _)
  · exact hgrid _ (normalizeXY_grid _)
  · rfl
  · have hemp := not_not.mp h6
    have hnorm : (normalizeXY (switchPlayer { b with grid := placeGrid b })).grid =
        placeGrid b := by
      rw [normalizeXY_grid]
      rfl
    show cellAt (normalizeXY (switchPlayer { b with grid := placeGrid b })) y x = cellAt b y x
    simp only [cellAt, hnorm]
    exact cellAt_place_persist b y x hne hemp
  · exact hgrid _ (normalizeXY_grid _)

lemma processInput_unmapped (b : board) (c : Char)
    (h1 : ¬(c = 'w' ∨ c = 'W')) (h2 : ¬(c = 'a' ∨ c = 'A')) (h3 : ¬(c = 's' ∨ c = 'S'))
    (h4 : ¬(c = 'd' ∨ c = 'D')) (h5 : ¬c = ' ') :
    processInput b c = normalizeXY b := by
  simp only [processInput]
  rw [if_neg h1, if_neg h2, if_neg h3, if_neg h4, if_neg h5]

lemma left_clamp (b : board) (hx : b.curX = 0) (hy : b.curY = 0)
    (hw : 0 < b.width) (hh : 0 < b.height) :
    (processInput b 'a').curX = 0 ∧ (processInput b 'a').curY = 0 := by
  simp only [processInput]
  rw [if_neg (by decide), if_pos (by decide)]
  simp only [normalizeXY]
  rw [if_neg (show ¬((b.height : Int) ≤ b.curY) by omega)]
  rw [if_neg (show ¬(b.curY < (0 : Int)) by omega)]
  rw [if_neg (show ¬((b.width : Int) ≤ b.curX - 1) by omega)]
  rw [if_pos (show b.curX - 1 < (0 : Int) by omega)]
  exact ⟨rfl, hy⟩

lemma up_clamp (b : board) (hx : b.curX = 0) (hy : b.curY = 0)
    (hw : 0 < b.width) (hh : 0 < b.height) :
    (processInput b 'w').curX = 0 ∧ (processInput b 'w').curY = 0 := by
  simp only [processInput]
  rw [if_pos (by decide)]
  simp only [normalizeXY]
  rw [if_neg (show ¬((b.height : Int) ≤ b.curY - 1) by omega)]
  rw [if_pos (show b.curY - 1 < (0 : Int) by omega)]
  rw [if_neg (show ¬((b.width : Int) ≤ b.curX) by omega)]
  rw [if_neg (show ¬(b.curX < (0 : Int)) by omega)]
  exact ⟨hx, rfl⟩

/-- C4: every state reached from the initial board by processing inputs keeps
the cursor inside `[0, width) × [0, height)`. -/
theorem C4_cursor_stays_in_bounds (b : board) (hb : Reachable b) :
    0 ≤ b.curX ∧ b.curX < b.width ∧ 0 ≤ b.curY ∧ b.curY < b.height :=
  (reachable_inv b hb).2.2

/-- C4 witness: the bounds hold concretely one input after the initial board. -/
theorem C4_cursor_stays_in_bounds_witness :
    0 ≤ (processInput initialBoard 'a').curX ∧
    (processInput initialBoard 'a').curX < (processInput initialBoard 'a').width ∧
    0 ≤ (processInput initialBoard 'a').curY ∧
    (processInput initialBoard 'a').curY < (processInput initialBoard 'a').height :=
  C4_cursor_stays_in_bounds _
    (Reachable.step _ 'a' (Reachable.init _ newBoard_three_three))

/-- C5: a placement on a non-empty cell fails and leaves the current player,
the move count, the cursor and the grid unchanged. -/
theorem C5_occupied_placement_is_noop (b : board)
    (h : cellAt b b.curY.toNat b.curX.toNat ≠ emptyCell) :
    (processInput b ' ').currPlayer = b.currPlayer ∧
    (processInput b ' ').moveCount = b.moveCount ∧
    (processInput b ' ').curX = b.curX ∧
    (processInput b ' ').curY = b.curY ∧
    (processInput b ' ').grid = b.grid := by
  rw [processInput_space_occupied b h]
  exact ⟨rfl, rfl, rfl, rfl, rfl⟩

/-- C5 witness: after one mark at the centre, a second space input there
changes nothing. -/
theorem C5_occupied_placement_is_noop_witness :
    cellAt (processInput initialBoard ' ')
        (processInput initialBoard ' ').curY.toNat
        (processInput initialBoard ' ').curX.toNat ≠ emptyCell ∧
    (processInput (processInput initialBoard ' ') ' ').currPlayer =
      (processInput initialBoard ' ').currPlayer ∧
    (processInput (processInput initialBoard ' ') ' ').grid =
      (processInput initialBoard ' ').grid :=
  ⟨by decide, (C5_occupied_placement_is_noop _ (by decide)).1,
    (C5_occupied_placement_is_noop _ (by decide)).2.2.2.2⟩

/-- C7: in any reachable state, processing any input never changes a cell
that already holds a mark. -/
theorem C7_marked_cell_persists (b : board) (_hb : Reachable b) (c : Char) (y x : Nat)
    (h : cellAt b y x ≠ emptyCell) :
    cellAt (processInput b c) y x = cellAt b y x :=
  cellAt_processInput b c y x h

/-- C7 witness: the centre mark placed by the first move survives a cursor
move. -/
theorem C7_marked_cell_persists_witness :
    cellAt (processInput initialBoard ' ') 1 1 ≠ emptyCell ∧
    cellAt (processInput (processInput initialBoard ' ') 'w') 1 1 =
      cellAt (processInput initialBoard ' ') 1 1 :=
  ⟨by decide, C7_marked_cell_persists _
    (Reachable.step _ ' ' (Reachable.init _ newBoard_three_three)) 'w' 1 1 (by decide)⟩

/-- C8: on a reachable state, any symbol outside the mapped alphabet leaves
grid, cursor, current player and move count unchanged. -/
theorem C8_unmapped_symbol_is_noop (b : board) (c : Char) (hb : Reachable b)
    (hc : c ∉ (['w', 'W', 'a', 'A', 's', 'S', 'd', 'D', ' ', 'q'] : List Char)) :
    (processInput b c).grid = b.grid ∧ (processInput b c).curX = b.curX ∧
    (processInput b c).curY = b.curY ∧ (processInput b c).currPlayer = b.currPlayer ∧
    (processInput b c).moveCount = b.moveCount := by
  simp only [List.mem_cons, List.not_mem_nil, or_false, not_or] at hc
  obtain ⟨hcw, hcW, hca, hcA, hcs, hcS, hcd, hcD, hcsp, hcq⟩ := hc
  rw [processInput_unmapped b c (not_or.mpr ⟨hcw, hcW⟩) (not_or.mpr ⟨hca, hcA⟩)
    (not_or.mpr ⟨hcs, hcS⟩) (not_or.mpr ⟨hcd, hcD⟩) hcsp]
  rw [normalizeXY_of_inBounds b (reachable_inv b hb).2.2]
  exact ⟨rfl, rfl, rfl, rfl, rfl⟩

/-- C8 witness: the symbol `x` on the initial board is a no-op. -/
theorem C8_unmapped_symbol_is_noop_witness :
    'x' ∉ (['w', 'W', 'a', 'A', 's', 'S', 'd', 'D', ' ', 'q'] : List Char) ∧
    (processInput initialBoard 'x').grid = initialBoard.grid ∧
    (processInput initialBoard 'x').currPlayer = initialBoard.currPlayer :=
  ⟨by decide,
    (C8_unmapped_symbol_is_noop initialBoard 'x'
      (Reachable.init _ newBoard_three_three) (by decide)).1,
    (C8_unmapped_symbol_is_noop initialBoard 'x'
      (Reachable.init _ newBoard_three_three) (by decide)).2.2.2.1⟩

/-- C9: with the cursor at `(0,0)` on a non-degenerate board, three left
inputs (and three up inputs) leave the cursor at `(0,0)`. -/
theorem C9_corner_moves_clamp (b : board) (hx : b.curX = 0) (hy : b.curY = 0)
    (hw : 0 < b.width) (hh : 0 < b.height) :
    ((processInput (processInput (processInput b 'a') 'a') 'a').curX = 0 ∧
     (processInput (processInput (processInput b 'a') 'a') 'a').curY = 0) ∧
    ((processInput (processInput (processInput b 'w') 'w') 'w').curX = 0 ∧
     (processInput (processInput (processInput b 'w') 'w') 'w').curY = 0) := by
  constructor
  · have h1 := left_clamp b hx hy hw hh
    have h2 := left_clamp _ h1.1 h1.2
      (by rw [processInput_width]; exact hw) (by rw [processInput_height]; exact hh)
    exact left_clamp _ h2.1 h2.2
      (by rw [processInput_width, processInput_width]; exact hw)
      (by rw [processInput_height, processInput_height]; exact hh)
  · have h1 := up_clamp b hx hy hw hh
    have h2 := up_clamp _ h1.1 h1.2
      (by rw [processInput_width]; exact hw) (by rw [processInput_height]; exact hh)
    exact up_clamp _ h2.1 h2.2
      (by rw [processInput_width, processInput_width]; exact hw)
      (by rw [processInput_height, processInput_height]; exact hh)

/-- C9 witness: the clamping holds on the concrete 3×3 board with the cursor
moved to the corner. -/
theorem C9_corner_moves_clamp_witness :
    ((processInput (processInput (processInput
        { initialBoard with curX := 0, curY := 0 } 'a') 'a') 'a').curX = 0 ∧
     (processInput (processInput (processInput
        { initialBoard with curX := 0, curY := 0 } 'a') 'a') 'a').curY = 0) ∧
    ((processInput (processInput (processInput
        { initialBoard with curX := 0, curY := 0 } 'w') 'w') 'w').curX = 0 ∧
     (processInput (processInput (processInput
        { initialBoard with curX := 0, curY := 0 } 'w') 'w') 'w').curY = 0) :=
  C9_corner_moves_clamp { initialBoard with curX := 0, curY := 0 }
    rfl rfl (by decide) (by decide)

/-- C1 counterexample: on the fresh board the centre cell is empty, yet the
space input leaves `moveCount` at 0 instead of incrementing it to 1 — the
source declares `moveCount` but never increments it. -/
theorem C1_counterexample :
    cellAt initialBoard initialBoard.curY.toNat initialBoard.curX.toNat = emptyCell ∧
    (processInput initialBoard ' ').moveCount ≠ initialBoard.moveCount + 1 := by
  decide

/-- C1 amended: a placement on an empty in-range cell sets that cell to
`currentPlayer` and toggles `currentPlayer` to the other player, but leaves
`moveCount` unchanged (the code never increments it). -/
theorem C1_placement_sets_cell_and_toggles (b : board)
    (hwf : gridWellFormed b.grid b.width b.height) (hin : inBounds b)
    (h : cellAt b b.curY.toNat b.curX.toNat = emptyCell) :
    cellAt (processInput b ' ') b.curY.toNat b.curX.toNat = b.currPlayer ∧
    (processInput b ' ').currPlayer = otherPlayer b ∧
    (processInput b ' ').moveCount = b.moveCount := by
  obtain ⟨hlen, hrow⟩ := hwf
  obtain ⟨hx0, hxw, hy0, hyh⟩ := hin
  rw [processInput_space_empty b h]
  have hg : (normalizeXY (switchPlayer { b with grid := placeGrid b })).grid =
      placeGrid b := by
    rw [normalizeXY_grid]
    rfl
  refine ⟨?_, ?_, ?_⟩
  · have hY : b.curY.toNat < b.grid.length := by rw [hlen]; omega
    have hX : b.curX.toNat < (b.grid.getD b.curY.toNat []).length := by
      rw [List.getD_eq_getElem _ _ hY, hrow _ (List.getElem_mem hY)]
      omega
    simp only [cellAt]
    rw [hg]
    simp only [placeGrid]
    rw [getD_set_self _ _ _ _ hY, getD_set_self _ _ _ _ hX]
  · rw [normalizeXY_currPlayer]
    rfl
  · rw [normalizeXY_moveCount]
    rfl

/-- C1 witness: the amended behaviour holds concretely on the fresh board. -/
theorem C1_placement_sets_cell_and_toggles_witness :
    gridWellFormed initialBoard.grid initialBoard.width initialBoard.height ∧
    inBounds initialBoard ∧
    cellAt initialBoard initialBoard.curY.toNat initialBoard.curX.toNat = emptyCell ∧
    cellAt (processInput initialBoard ' ') initialBoard.curY.toNat
      initialBoard.curX.toNat = initialBoard.currPlayer ∧
    (processInput initialBoard ' ').currPlayer = otherPlayer initialBoard ∧
    (processInput initialBoard ' ').moveCount = initialBoard.moveCount := by
  refine ⟨⟨by decide, by decide⟩, by decide, by decide, ?_⟩
  exact C1_placement_sets_cell_and_toggles initialBoard
    ⟨by decide, by decide⟩ (by decide) (by decide)

/-- A board on which `'X'` has completed the top row, with the turn already
toggled to `'O'` as `placeMark` would leave it. -/
def winBoard : board :=
  { initialBoard with
      grid := [['X', 'X', 'X'], [emptyCell, emptyCell, emptyCell],
        [emptyCell, emptyCell, emptyCell]],
      currPlayer := 'O' }

/-- A full board with no winning line. -/
def drawBoard : board :=
  { initialBoard with grid := [['X', 'O', 'X'], ['O', 'X', 'O'], ['O', 'X', 'O']] }

/-- C2: the outcome evaluation tries quit, then win (named for the player
other than `currPlayer`), then draw, and otherwise continues. -/
theorem C2_outcome_priority (b : board) (input : Char) :
    (input = 'q' → evalBoardState b input = Outcome.Quit) ∧
    (input ≠ 'q' → checkForWin b = true →
      evalBoardState b input = Outcome.Win (otherPlayer b)) ∧
    (input ≠ 'q' → checkForWin b = false → isFull b = true →
      evalBoardState b input = Outcome.Draw) ∧
    (input ≠ 'q' → checkForWin b = false → isFull b = false →
      evalBoardState b input = Outcome.Continue) := by
  refine ⟨fun hq => ?_, fun hq hw => ?_, fun hq hw hf => ?_, fun hq hw hf => ?_⟩
  · simp [evalBoardState, hq]
  · simp [evalBoardState, hq, hw]
  · simp [evalBoardState, hq, hw, hf]
  · simp [evalBoardState, hq, hw, hf]

/-- C2 witness: all four branches fire on concrete boards. -/
theorem C2_outcome_priority_witness :
    evalBoardState initialBoard 'q' = Outcome.Quit ∧
    evalBoardState winBoard 'x' = Outcome.Win (otherPlayer winBoard) ∧
    evalBoardState drawBoard 'x' = Outcome.Draw ∧
    evalBoardState initialBoard 'x' = Outcome.Continue :=
  ⟨(C2_outcome_priority initialBoard 'q').1 rfl,
   (C2_outcome_priority winBoard 'x').2.1 (by decide) (by decide),
   (C2_outcome_priority drawBoard 'x').2.2.1 (by decide) (by decide) (by decide),
   (C2_outcome_priority initialBoard 'x').2.2.2 (by decide) (by decide) (by decide)⟩

lemma foldlM_assignRow (h w : Nat) :
    (List.range w).foldlM (assignRow h) (List.replicate h ([] : List Cell)) =
      if w ≤ h then
        some (List.replicate w (List.replicate h emptyCell) ++ List.replicate (h - w) [])
      else none := by
  induction w with
  | zero => simp
  | succ w ih =>
    rw [List.range_succ, List.foldlM_append, ih]
    by_cases hwh : w ≤ h
    · rw [if_pos hwh]
      simp only [Option.bind_eq_bind, Option.some_bind, List.foldlM_cons, List.foldlM_nil,
        assignRow, List.length_append, List.length_replicate]
      rcases Nat.lt_or_ge w h with hlt | hge
      · rw [if_pos (by omega), if_pos (by omega)]
        rw [List.set_append, if_neg (by simp)]
        simp only [List.length_replicate, Nat.sub_self]
        rw [show h - w = (h - w - 1) + 1 by omega, List.replicate_succ, List.set_cons_zero]
        rw [show w + 1 = Nat.succ w from rfl, List.replicate_succ' w, List.append_assoc]
        simp only [List.singleton_append, Option.some_bind]
        rw [show h - (w + 1) = h - w - 1 by omega]
        rfl
      · have hwe : w = h := Nat.le_antisymm hwh hge
        subst hwe
        rw [if_neg (by omega), if_neg (by omega)]
        simp
    · rw [if_neg hwh, if_neg (by omega)]
      simp

lemma newBoard_char (w h : Nat) :
    newBoard w h =
      if w ≤ h then
        some { grid := List.replicate w (List.replicate h emptyCell) ++ List.replicate (h - w) [],
               width := w, height := h, curX := 1, curY := 1, currPlayer := 'X',
               moveCount := 0 }
      else none := by
  rw [newBoard, foldlM_assignRow]
  by_cases hwh : w ≤ h
  · rw [if_pos hwh, if_pos hwh]
    rfl
  · rw [if_neg hwh, if_neg hwh]
    rfl

lemma getD_replicate {α : Type} (n m : Nat) (a d : α) :
    (List.replicate n a).getD m d = if m < n then a else d := by
  rw [List.getD_eq_getElem?_getD, List.getElem?_replicate]
  split_ifs <;> rfl

/-- C6 counterexample: `newBoard(5, 5)` puts the cursor at `(1, 1)`, not at
the centre `(2, 2)` of the 5×5 board. -/
theorem C6_counterexample :
    newBoard 5 5 =
      some { grid := List.replicate 5 (List.replicate 5 emptyCell), width := 5, height := 5,
             curX := 1, curY := 1, currPlayer := 'X', moveCount := 0 } ∧
    ¬((1 : Int) = 5 / 2 ∧ (1 : Int) = 5 / 2) := by
  constructor
  · decide
  · decide

/-- C6 amended: for every n ≥ 1 the square construction succeeds with every
cell empty, the cursor at `(1, 1)` (the centre only when n = 3), player `'X'`
and `moveCount` 0. -/
theorem C6_initial_state (n : Nat) (_hn : 1 ≤ n) :
    (newBoard n n).isSome = true ∧
    ∀ b, newBoard n n = some b →
      (∀ y, y < n → ∀ x, x < n → cellAt b y x = emptyCell) ∧
      b.curX = 1 ∧ b.curY = 1 ∧ b.currPlayer = 'X' ∧ b.moveCount = 0 := by
  rw [newBoard_char, if_pos (Nat.le_refl n)]
  refine ⟨rfl, fun b hb => ?_⟩
  injection hb with hb
  subst hb
  refine ⟨fun y hy x hx => ?_, rfl, rfl, rfl, rfl⟩
  simp only [cellAt, Nat.sub_self, List.replicate_zero, List.append_nil]
  rw [getD_replicate, if_pos hy, getD_replicate, if_pos hx]

/-- C6 witness: the amended statement instantiated at n = 3 gives the actual
initial board of the game. -/
theorem C6_initial_state_witness :
    (newBoard 3 3).isSome = true ∧
    cellAt initialBoard 0 0 = emptyCell ∧ initialBoard.curX = 1 ∧
    initialBoard.curY = 1 ∧ initialBoard.currPlayer = 'X' ∧
    initialBoard.moveCount = 0 := by
  obtain ⟨hsome, hall⟩ := C6_initial_state 3 (by decide)
  obtain ⟨hcell, h1, h2, h3, h4⟩ := hall initialBoard newBoard_three_three
  exact ⟨hsome, hcell 0 (by decide) 0 (by decide), h1, h2, h3, h4⟩

/-- C10: the square construction yields n rows of length n; a wider-than-tall
request indexes out of range (modelled as `none`); a taller-than-wide request
with positive width yields a grid that is not `width × height` (its first row
has length `height ≠ width`). -/
theorem C10_construction_square_only (w h : Nat) :
    (w = h → (newBoard w h).isSome = true ∧
      ∀ b, newBoard w h = some b → b.grid.length = w ∧ ∀ r ∈ b.grid, r.length = w) ∧
    (h < w → newBoard w h = none) ∧
    (1 ≤ w → w < h → ∀ b, newBoard w h = some b → ¬gridWellFormed b.grid w h) := by
  refine ⟨fun hwh => ?_, fun hlt => ?_, fun hw1 hlt b hb => ?_⟩
  · subst hwh
    rw [newBoard_char, if_pos (Nat.le_refl w)]
    refine ⟨rfl, fun b hb => ?_⟩
    injection hb with hb
    subst hb
    simp only [Nat.sub_self, List.replicate_zero, List.append_nil]
    exact ⟨List.length_replicate w _, fun r hr => by
      rw [List.eq_of_mem_replicate hr]; exact List.length_replicate w _⟩
  · rw [newBoard_char, if_neg (by omega)]
  · rw [newBoard_char, if_pos (Nat.le_of_lt hlt)] at hb
    injection hb with hb
    subst hb
    intro hwf
    obtain ⟨_, hrows⟩ := hwf
    have hmem : List.replicate h emptyCell ∈
        List.replicate w (List.replicate h emptyCell) ++ List.replicate (h - w) [] :=
      List.mem_append_left _ (List.mem_replicate.mpr ⟨by omega, rfl⟩)
    have := hrows _ hmem
    rw [List.length_replicate] at this
    omega

/-- C10 witness: the three clauses hold at the concrete sizes 3×3, 3×2 and
2×3. -/
theorem C10_construction_square_only_witness :
    (newBoard 3 3).isSome = true ∧
    (initialBoard.grid.length = 3 ∧ ∀ r ∈ initialBoard.grid, r.length = 3) ∧
    newBoard 3 2 = none ∧
    ∀ b, newBoard 2 3 = some b → ¬gridWellFormed b.grid 2 3 := by
  refine ⟨((C10_construction_square_only 3 3).1 rfl).1, ?_, ?_, ?_⟩
  · exact ((C10_construction_square_only 3 3).1 rfl).2 initialBoard newBoard_three_three
  · exact (C10_construction_square_only 3 2).2.1 (by decide)
  · exact (C10_construction_square_only 2 3).2.2 (by decide) (by decide)

/-- The negation of the row-loop kill condition at row `yi`: every cell of
the row equals its first cell and that cell is non-empty. -/
def rowFlag (b : board) (yi : Nat) : Prop :=
  ∀ xi, xi < b.width → cellAt b yi 0 = cellAt b yi xi ∧ cellAt b yi 0 ≠ emptyCell

/-- The negation of the column-loop kill condition at column `yi`. -/
def colFlag (b : board) (yi : Nat) : Prop :=
  ∀ xi, xi < b.width → cellAt b 0 yi = cellAt b xi yi ∧ cellAt b 0 yi ≠ emptyCell

/-- The negation of the main-diagonal kill condition at index `yi`. -/
def diag1At (b : board) (yi : Nat) : Prop :=
  cellAt b 0 0 = cellAt b yi yi ∧ cellAt b 0 0 ≠ emptyCell

/-- The negation of the anti-diagonal kill condition at index `yi`. -/
def diag2At (b : board) (yi : Nat) : Prop :=
  cellAt b (b.height - 1) 0 = cellAt b (b.height - 1 - yi) yi ∧
    cellAt b (b.height - 1) 0 ≠ emptyCell

/-- The spec's reading of `checkWin`: some row, column or diagonal has all
its cells equal and non-empty. -/
def specCheckWin (b : board) : Prop :=
  (∃ yi, yi < b.height ∧ ∃ m, m ≠ emptyCell ∧ ∀ xi, xi < b.width → cellAt b yi xi = m) ∨
  (∃ xi, xi < b.width ∧ ∃ m, m ≠ emptyCell ∧ ∀ yi, yi < b.height → cellAt b yi xi = m) ∨
  (∃ m, m ≠ emptyCell ∧ ∀ i, i < b.height → cellAt b i i = m) ∨
  (∃ m, m ≠ emptyCell ∧ ∀ i, i < b.height → cellAt b (b.height - 1 - i) i = m)

lemma foldl_flags (P Q : Nat → Prop) [DecidablePred P] [DecidablePred Q] (l : List Nat) :
    ∀ r0 c0 : Bool,
      l.foldl (fun rc xi => (if P xi then false else rc.1, if Q xi then false else rc.2))
          (r0, c0) =
        (r0 && l.all fun xi => !(decide (P xi)), c0 && l.all fun xi => !(decide (Q xi))) := by
  induction l with
  | nil => simp
  | cons x xs ih =>
    intro r0 c0
    simp only [List.foldl_cons, List.all_cons, ih]
    by_cases hp : P x <;> by_cases hq : Q x <;> simp [hp, hq]

lemma rowColScan_eq (b : board) (yi : Nat) :
    rowColScan b yi =
      (List.all (List.range b.width)
        (fun xi => !(decide (cellAt b yi 0 ≠ cellAt b yi xi ∨ cellAt b yi 0 = emptyCell))),
       List.all (List.range b.width)
        (fun xi => !(decide (cellAt b 0 yi ≠ cellAt b xi yi ∨ cellAt b 0 yi = emptyCell)))) := by
  have h := foldl_flags
    (fun xi => cellAt b yi 0 ≠ cellAt b yi xi ∨ cellAt b yi 0 = emptyCell)
    (fun xi => cellAt b 0 yi ≠ cellAt b xi yi ∨ cellAt b 0 yi = emptyCell)
    (List.range b.width) true true
  simp only [rowColScan]
  simpa using h

lemma rowColScan_fst_iff (b : board) (yi : Nat) :
    (rowColScan b yi).1 = true ↔ rowFlag b yi := by
  rw [rowColScan_eq]
  simp [rowFlag, List.all_eq_true, List.mem_range, not_or]

lemma rowColScan_snd_iff (b : board) (yi : Nat) :
    (rowColScan b yi).2 = true ↔ colFlag b yi := by
  rw [rowColScan_eq]
  simp [colFlag, List.all_eq_true, List.mem_range, not_or]

lemma diag1Flag_step (b : board) (yi : Nat) (d1 : Bool) :
    ((if cellAt b 0 0 ≠ cellAt b yi yi ∨ cellAt b 0 0 = emptyCell then false else d1) = true) ↔
      (d1 = true ∧ diag1At b yi) := by
  by_cases hC : cellAt b 0 0 ≠ cellAt b yi yi ∨ cellAt b 0 0 = emptyCell
  · rw [if_pos hC]
    constructor
    · intro h
      exact absurd h (by simp)
    · rintro ⟨_, h1, h2⟩
      rcases hC with h | h
      · exact absurd h1 h
      · exact absurd h h2
  · rw [if_neg hC]
    have hd : diag1At b yi := by
      rw [diag1At]
      push_neg at hC
      exact ⟨hC.1, hC.2⟩
    simp [hd]

lemma diag2Flag_step (b : board) (yi : Nat) (d2 : Bool) :
    ((if cellAt b (b.height - 1) 0 ≠ cellAt b (b.height - 1 - yi) yi ∨
        cellAt b (b.height - 1) 0 = emptyCell then false else d2) = true) ↔
      (d2 = true ∧ diag2At b yi) := by
  by_cases hC : cellAt b (b.height - 1) 0 ≠ cellAt b (b.height - 1 - yi) yi ∨
      cellAt b (b.height - 1) 0 = emptyCell
  · rw [if_pos hC]
    constructor
    · intro h
      exact absurd h (by simp)
    · rintro ⟨_, h1, h2⟩
      rcases hC with h | h
      · exact absurd h1 h
      · exact absurd h h2
  · rw [if_neg hC]
    have hd : diag2At b yi := by
      rw [diag2At]
      push_neg at hC
      exact ⟨hC.1, hC.2⟩
    simp [hd]

lemma winScan_iff (b : board) : ∀ (fuel yi : Nat) (d1 d2 : Bool),
    winScan b fuel yi d1 d2 = true ↔
      ((∃ j, yi ≤ j ∧ j < yi + fuel ∧ (rowFlag b j ∨ colFlag b j)) ∨
       (d1 = true ∧ ∀ j, yi ≤ j → j < yi + fuel → diag1At b j) ∨
       (d2 = true ∧ ∀ j, yi ≤ j → j < yi + fuel → diag2At b j)) := by
  intro fuel
  induction fuel with
  | zero =>
    intro yi d1 d2
    simp only [winScan, Bool.or_eq_true]
    constructor
    · rintro (h | h)
      · exact Or.inr (Or.inl ⟨h, fun j h1 h2 => absurd h2 (by omega)⟩)
      · exact Or.inr (Or.inr ⟨h, fun j h1 h2 => absurd h2 (by omega)⟩)
    · rintro (⟨j, h1, h2, _⟩ | ⟨h, _⟩ | ⟨h, _⟩)
      · omega
      · exact Or.inl h
      · exact Or.inr h
  | succ fuel ih =>
    intro yi d1 d2
    simp only [winScan]
    by_cases hrc : ((rowColScan b yi).1 || (rowColScan b yi).2) = true
    · rw [if_pos hrc]
      have hj : rowFlag b yi ∨ colFlag b yi := by
        rw [Bool.or_eq_true] at hrc
        rcases hrc with h | h
        · exact Or.inl ((rowColScan_fst_iff b yi).mp h)
        · exact Or.inr ((rowColScan_snd_iff b yi).mp h)
      constructor
      · intro _
        exact Or.inl ⟨yi, Nat.le_refl yi, by omega, hj⟩
      · intro _
        rfl
    · rw [if_neg hrc]
      have hnrc : ¬rowFlag b yi ∧ ¬colFlag b yi := by
        rw [Bool.or_eq_true, not_or] at hrc
        exact ⟨fun h => hrc.1 ((rowColScan_fst_iff b yi).mpr h),
               fun h => hrc.2 ((rowColScan_snd_iff b yi).mpr h)⟩
      rw [ih (yi + 1)]
      constructor
      · rintro (⟨j, hj1, hj2, hj3⟩ | ⟨hd, hall⟩ | ⟨hd, hall⟩)
        · exact Or.inl ⟨j, by omega, by omega, hj3⟩
        · rw [diag1Flag_step] at hd
          refine Or.inr (Or.inl ⟨hd.1, fun j h1 h2 => ?_⟩)
          rcases eq_or_lt_of_le h1 with rfl | hlt
          · exact hd.2
          · exact hall j (by omega) (by omega)
        · rw [diag2Flag_step] at hd
          refine Or.inr (Or.inr ⟨hd.1, fun j h1 h2 => ?_⟩)
          rcases eq_or_lt_of_le h1 with rfl | hlt
          · exact hd.2
          · exact hall j (by omega) (by omega)
      · rintro (⟨j, hj1, hj2, hj3⟩ | ⟨hd, hall⟩ | ⟨hd, hall⟩)
        · rcases eq_or_lt_of_le hj1 with rfl | hlt
          · rcases hj3 with h | h
            · exact absurd h hnrc.1
            · exact absurd h hnrc.2
          · exact Or.inl ⟨j, by omega, by omega, hj3⟩
        · refine Or.inr (Or.inl ⟨?_, fun j h1 h2 => hall j (by omega) (by omega)⟩)
          rw [diag1Flag_step]
          exact ⟨hd, hall yi (Nat.le_refl yi) (by omega)⟩
        · refine Or.inr (Or.inr ⟨?_, fun j h1 h2 => hall j (by omega) (by omega)⟩)
          rw [diag2Flag_step]
          exact ⟨hd, hall yi (Nat.le_refl yi) (by omega)⟩

lemma checkForWin_iff (b : board) :
    checkForWin b = true ↔
      ((∃ j, j < b.height ∧ (rowFlag b j ∨ colFlag b j)) ∨
       (∀ j, j < b.height → diag1At b j) ∨
       (∀ j, j < b.height → diag2At b j)) := by
  rw [checkForWin, winScan_iff]
  constructor
  · rintro (⟨j, _, hj2, hj3⟩ | ⟨_, hall⟩ | ⟨_, hall⟩)
    · exact Or.inl ⟨j, by omega, hj3⟩
    · exact Or.inr (Or.inl fun j hj => hall j (Nat.zero_le j) (by omega))
    · exact Or.inr (Or.inr fun j hj => hall j (Nat.zero_le j) (by omega))
  · rintro (⟨j, hj1, hj2⟩ | hall | hall)
    · exact Or.inl ⟨j, Nat.zero_le j, by omega, hj2⟩
    · exact Or.inr (Or.inl ⟨rfl, fun j _ hj => hall j (by omega)⟩)
    · exact Or.inr (Or.inr ⟨rfl, fun j _ hj => hall j (by omega)⟩)

lemma rowFlag_iff_spec (b : board) (j : Nat) (hpos : 0 < b.width) :
    rowFlag b j ↔ ∃ m, m ≠ emptyCell ∧ ∀ xi, xi < b.width → cellAt b j xi = m := by
  constructor
  · intro h
    exact ⟨cellAt b j 0, (h 0 hpos).2, fun xi hxi => ((h xi hxi).1).symm⟩
  · rintro ⟨m, hm, hall⟩ xi hxi
    have h0 := hall 0 hpos
    constructor
    · rw [h0, hall xi hxi]
    · rw [h0]
      exact hm

lemma colFlag_iff_spec (b : board) (j : Nat) (hpos : 0 < b.width) :
    colFlag b j ↔ ∃ m, m ≠ emptyCell ∧ ∀ yi, yi < b.width → cellAt b yi j = m := by
  constructor
  · intro h
    exact ⟨cellAt b 0 j, (h 0 hpos).2, fun yi hyi => ((h yi hyi).1).symm⟩
  · rintro ⟨m, hm, hall⟩ xi hxi
    have h0 := hall 0 hpos
    constructor
    · rw [h0, hall xi hxi]
    · rw [h0]
      exact hm

lemma diag1_iff_spec (b : board) (hpos : 0 < b.height) :
    (∀ j, j < b.height → diag1At b j) ↔
      (∃ m, m ≠ emptyCell ∧ ∀ i, i < b.height → cellAt b i i = m) := by
  constructor
  · intro h
    exact ⟨cellAt b 0 0, (h 0 hpos).2, fun i hi => ((h i hi).1).symm⟩
  · rintro ⟨m, hm, hall⟩ j hj
    have h0 := hall 0 hpos
    constructor
    · rw [h0, hall j hj]
    · rw [h0]
      exact hm

lemma diag2_iff_spec (b : board) (hpos : 0 < b.height) :
    (∀ j, j < b.height → diag2At b j) ↔
      (∃ m, m ≠ emptyCell ∧ ∀ i, i < b.height → cellAt b (b.height - 1 - i) i = m) := by
  constructor
  · intro h
    exact ⟨cellAt b (b.height - 1) 0, (h 0 hpos).2, fun i hi => ((h i hi).1).symm⟩
  · rintro ⟨m, hm, hall⟩ j hj
    have h0 : cellAt b (b.height - 1) 0 = m := hall 0 hpos
    constructor
    · rw [h0, hall j hj]
    · rw [h0]
      exact hm

/-- C3: on any square n×n board (n ≥ 1), `checkForWin` is true exactly when
some row, column or diagonal is uniformly equal and non-empty, and in
particular it is false when every cell is empty. -/
theorem C3_checkForWin_characterization (b : board) (n : Nat) (hn : 1 ≤ n)
    (hw : b.width = n) (hh : b.height = n) (_hwf : gridWellFormed b.grid n n) :
    (checkForWin b = true ↔ specCheckWin b) ∧
    ((∀ y, y < n → ∀ x, x < n → cellAt b y x = emptyCell) → checkForWin b = false) := by
  have hwpos : 0 < b.width := by omega
  have hhpos : 0 < b.height := by omega
  have hmain : checkForWin b = true ↔ specCheckWin b := by
    rw [checkForWin_iff, specCheckWin]
    constructor
    · rintro (⟨j, hj, hr | hc⟩ | hd | hd)
      · exact Or.inl ⟨j, hj, (rowFlag_iff_spec b j hwpos).mp hr⟩
      · refine Or.inr (Or.inl ⟨j, by omega, ?_⟩)
        obtain ⟨m, hm, hall⟩ := (colFlag_iff_spec b j hwpos).mp hc
        exact ⟨m, hm, fun yi hyi => hall yi (by omega)⟩
      · exact Or.inr (Or.inr (Or.inl ((diag1_iff_spec b hhpos).mp hd)))
      · exact Or.inr (Or.inr (Or.inr ((diag2_iff_spec b hhpos).mp hd)))
    · rintro (⟨j, hj, hspec⟩ | ⟨j, hj, m, hm, hall⟩ | hd | hd)
      · exact Or.inl ⟨j, hj, Or.inl ((rowFlag_iff_spec b j hwpos).mpr hspec)⟩
      · refine Or.inl ⟨j, by omega, Or.inr ((colFlag_iff_spec b j hwpos).mpr ?_)⟩
        exact ⟨m, hm, fun yi hyi => hall yi (by omega)⟩
      · exact Or.inr (Or.inl ((diag1_iff_spec b hhpos).mpr hd))
      · exact Or.inr (Or.inr ((diag2_iff_spec b hhpos).mpr hd))
  refine ⟨hmain, fun hempty => ?_⟩
  have hnospec : ¬specCheckWin b := by
    rintro (⟨j, hj, m, hm, hall⟩ | ⟨j, hj, m, hm, hall⟩ | ⟨m, hm, hall⟩ | ⟨m, hm, hall⟩)
    · refine hm ?_
      rw [← hall 0 hwpos]
      exact hempty j (by omega) 0 (by omega)
    · refine hm ?_
      rw [← hall 0 hhpos]
      exact hempty 0 (by omega) j (by omega)
    · refine hm ?_
      rw [← hall 0 hhpos]
      exact hempty 0 (by omega) 0 (by omega)
    · refine hm ?_
      rw [← hall 0 hhpos]
      exact hempty (b.height - 1 - 0) (by omega) 0 (by omega)
  cases hcw : checkForWin b with
  | false => rfl
  | true => exact absurd (hmain.mp hcw) hnospec

/-- C3 witness: on the concrete board with a completed top row `checkForWin`
is true and the spec-side predicate holds; on the all-empty initial board it
is false. -/
theorem C3_checkForWin_characterization_witness :
    (1 ≤ 3 ∧ winBoard.width = 3 ∧ winBoard.height = 3 ∧
      gridWellFormed winBoard.grid 3 3) ∧
    checkForWin winBoard = true ∧ specCheckWin winBoard ∧
    checkForWin initialBoard = false :=
  ⟨⟨by decide, rfl, rfl, by decide⟩, by decide,
   (C3_checkForWin_characterization winBoard 3 (by decide) rfl rfl (by decide)).1.mp
     (by decide),
   (C3_checkForWin_characterization initialBoard 3 (by decide) rfl rfl (by decide)).2
     (by decide)⟩

end TicTacToe
